import Mathlib

/-!
Verification of the agentic-checkout orchestrator of `nekuda-agentic-wallet`.

The development shallowly embeds the TypeScript sources:
* `src/lib/merchant/product-repo.ts` — product catalog with stock decrement;
* `src/lib/merchant/cart-repo.ts` (both the in-memory and the Redis variant,
  whose per-cart logic is identical) — cart lifecycle
  `active → checked_out → paid`;
* `src/lib/agent/session-store.ts` — session records, TTL eviction and the
  payment-method vault;
* the agent tool set (`executePayment`, `requestCardRevealToken`,
  `handleNekudaError`) and the checkout handoff-token service.

Numbers: TypeScript `number` prices are modelled as `ℚ`, stock as `ℤ`
(so that non-negativity is a real statement), quantities as `ℕ`
(they are validated as positive integers at the tool boundary).
Timestamps are epoch milliseconds.
-/

namespace Wallet

/-! ## Catalog (`product-repo.ts`) -/

structure Product where
  id : String
  name : String
  price : ℚ
  stock : ℤ
  deriving Repr, DecidableEq

/-- The product map; lookup finds the first entry with the given id. -/
abbrev Catalog := List Product

/-- `productRepo.getById` -/
def getById : Catalog → String → Option Product
  | [], _ => none
  | p :: rest, pid => if p.id = pid then some p else getById rest pid

/-- `productRepo.updateStock`: decrement stock after successful payment;
`none` models the `false` return (product missing or insufficient stock),
in which case the map is unchanged. -/
def updateStock : Catalog → String → ℕ → Option Catalog
  | [], _, _ => none
  | p :: rest, pid, q =>
    if p.id = pid then
      if p.stock < (q : ℤ) then none
      else some ({ p with stock := p.stock - (q : ℤ) } :: rest)
    else (updateStock rest pid q).map (p :: ·)

/-! ## Cart data model (`types.ts`) -/

inductive CartStatus where
  | active
  | checked_out
  | paid
  deriving Repr, DecidableEq

structure CartItem where
  productId : String
  productName : String
  quantity : ℕ
  unitPrice : ℚ
  deriving Repr, DecidableEq

structure Cart where
  id : String
  userId : String
  items : List CartItem
  status : CartStatus
  total : ℚ
  deriving Repr, DecidableEq

/-! ## Cart repository (`cart-repo.ts`)

Each operation acts on the cart stored under the given id (the world-level
`carts.get(cartId)` / "Cart not found" branch is factored out); `Except`
errors model the `{ error }` returns, in which case the stored cart is
unchanged. -/

/-- `recalcTotal` -/
def recalcTotal (items : List CartItem) : ℚ :=
  (items.map (fun i => i.unitPrice * (i.quantity : ℚ))).sum

/-- `cartRepo.create` -/
def createCart (cartId userId : String) : Cart :=
  { id := cartId, userId := userId, items := [], status := .active, total := 0 }

/-- The `existing.quantity += quantity` branch of `addItem`: bump the first
line item with the given product id. -/
def bumpFirst : List CartItem → String → ℕ → List CartItem
  | [], _, _ => []
  | i :: rest, pid, q =>
    if i.productId = pid then { i with quantity := i.quantity + q } :: rest
    else i :: bumpFirst rest pid q

/-- `cartRepo.addItem` -/
def addItem (cat : Catalog) (cart : Cart) (productId : String) (quantity : ℕ) :
    Except String Cart :=
  if cart.status ≠ .active then .error "Cart is not active"
  else
    match getById cat productId with
    | none => .error ("Product " ++ productId ++ " not found")
    | some product =>
      if product.stock < (quantity : ℤ) then
        .error ("Insufficient stock for " ++ product.name)
      else
        let items :=
          if cart.items.any (·.productId = productId) then
            bumpFirst cart.items productId quantity
          else
            cart.items ++ [{ productId := productId, productName := product.name,
                             quantity := quantity, unitPrice := product.price }]
        .ok { cart with items := items, total := recalcTotal items }

/-- The price-refresh loop of `checkout`: refreshes each line's `unitPrice`
from the catalog and accumulates the total left to right. -/
def checkoutLoop (cat : Catalog) : List CartItem → ℚ → Except String (List CartItem × ℚ)
  | [], total => .ok ([], total)
  | i :: rest, total =>
    match getById cat i.productId with
    | none => .error ("Product " ++ i.productId ++ " no longer exists")
    | some product =>
      (checkoutLoop cat rest (total + product.price * (i.quantity : ℚ))).map
        (fun r => ({ i with unitPrice := product.price } :: r.1, r.2))

/-- `cartRepo.checkout`: freeze the cart, recomputing prices from the catalog. -/
def checkout (cat : Catalog) (cart : Cart) : Except String Cart :=
  if cart.status ≠ .active then .error "Cart is already checked out or paid"
  else if cart.items = [] then .error "Cart is empty"
  else
    match checkoutLoop cat cart.items 0 with
    | .error e => .error e
    | .ok (items, total) =>
      .ok { cart with items := items, total := total, status := .checked_out }

/-- The stock-decrement loop of `markPaid`. On failure, decrements already
applied to earlier items persist (the TS loop mutates the global product map
and returns mid-way). -/
def markPaidLoop : Catalog → List CartItem → Catalog × Option String
  | cat, [] => (cat, none)
  | cat, i :: rest =>
    match updateStock cat i.productId i.quantity with
    | none => (cat, some ("Failed to decrement stock for " ++ i.productId))
    | some cat' => markPaidLoop cat' rest

/-- `cartRepo.markPaid`: returns the (possibly partially decremented) catalog
together with the result. -/
def markPaid (cat : Catalog) (cart : Cart) : Catalog × Except String Cart :=
  if cart.status ≠ .checked_out then (cat, .error "Cart must be checked_out first")
  else
    match markPaidLoop cat cart.items with
    | (cat', some e) => (cat', .error e)
    | (cat', none) => (cat', .ok { cart with status := .paid })

/-- The cart visible in the store after `markPaid` (unchanged on error). -/
def cartAfterMarkPaid (cat : Catalog) (cart : Cart) : Cart :=
  match (markPaid cat cart).2 with
  | .ok c => c
  | .error _ => cart

/-- The find-then-splice body of `removeItem` (first match). -/
def removeItemList : List CartItem → String → Option (List CartItem)
  | [], _ => none
  | i :: rest, pid =>
    if i.productId = pid then some rest
    else (removeItemList rest pid).map (i :: ·)

/-- `cartRepo.removeItem` -/
def removeItem (cart : Cart) (productId : String) : Except String Cart :=
  if cart.status ≠ .active then .error "Cart is not active"
  else
    match removeItemList cart.items productId with
    | none => .error ("Product " ++ productId ++ " not in cart")
    | some items => .ok { cart with items := items, total := recalcTotal items }

/-- The body of `reduceItem`: decrement the first matching line's quantity,
dropping the line when it reaches zero. -/
def reduceItemList : List CartItem → String → ℕ → Option (List CartItem)
  | [], _, _ => none
  | i :: rest, pid, amount =>
    if i.productId = pid then
      some (if i.quantity - amount = 0 then rest
            else { i with quantity := i.quantity - amount } :: rest)
    else (reduceItemList rest pid amount).map (i :: ·)

/-- `cartRepo.reduceItem` -/
def reduceItem (cart : Cart) (productId : String) (amount : ℕ) : Except String Cart :=
  if cart.status ≠ .active then .error "Cart is not active"
  else
    match reduceItemList cart.items productId amount with
    | none => .error ("Product " ++ productId ++ " not in cart")
    | some items => .ok { cart with items := items, total := recalcTotal items }

/-- `cartRepo.clear` -/
def clearCart (cart : Cart) : Except String Cart :=
  if cart.status ≠ .active then .error "Cart is not active"
  else .ok { cart with items := [], total := 0 }

/-! ## Session store (`session-store.ts`) -/

inductive PayStatus where
  | pending
  | succeeded
  | failed
  deriving Repr, DecidableEq

inductive MandateStatus where
  | pending
  | approved
  | failed
  deriving Repr, DecidableEq

/-- `AgentSessionState` (`types.ts`); `credentialsRevealedAt` is the ISO
timestamp modelled as epoch milliseconds. -/
structure SessionState where
  sessionId : String
  userId : String
  cartId : Option String
  cartStatus : Option CartStatus
  cartTotal : Option ℚ
  checkoutId : Option String
  mandateId : Option ℤ
  mandateStatus : Option MandateStatus
  revealTokenObtained : Bool
  credentialsRevealed : Bool
  credentialsRevealedAt : Option ℤ
  orderId : Option String
  stripePaymentIntentId : Option String
  paymentStatus : Option PayStatus
  error : Option String
  updatedAt : ℤ
  deriving Repr, DecidableEq

/-- `createSessionState` -/
def createSessionState (sessionId userId : String) (now : ℤ) : SessionState :=
  { sessionId := sessionId, userId := userId,
    cartId := none, cartStatus := none, cartTotal := none, checkoutId := none,
    mandateId := none, mandateStatus := none,
    revealTokenObtained := false, credentialsRevealed := false,
    credentialsRevealedAt := none,
    orderId := none, stripePaymentIntentId := none, paymentStatus := none,
    error := none, updatedAt := now }

structure SessionEntry where
  state : SessionState
  createdAt : ℤ
  completedAt : Option ℤ
  deriving Repr, DecidableEq

/-- The two `Map`s held on `globalThis`: the session store and the
payment-method vault. -/
structure SessionWorld where
  store : List (String × SessionEntry)
  vault : List (String × String)
  deriving Repr, DecidableEq

/-- First-match lookup, the model of `Map.get`. -/
def lookupKey {α : Type} : List (String × α) → String → Option α
  | [], _ => none
  | (k, v) :: rest, key => if k = key then some v else lookupKey rest key

/-- `Map.delete` -/
def removeKey {α : Type} : List (String × α) → String → List (String × α)
  | [], _ => []
  | (k, v) :: rest, key =>
    if k = key then removeKey rest key else (k, v) :: removeKey rest key

/-- `Map.set` -/
def setKey {α : Type} (l : List (String × α)) (key : String) (v : α) :
    List (String × α) :=
  removeKey l key ++ [(key, v)]

/-- `COMPLETED_TTL_MS` (30 min) -/
def COMPLETED_TTL_MS : ℤ := 30 * 60 * 1000

/-- `ABANDONED_TTL_MS` (60 min) -/
def ABANDONED_TTL_MS : ℤ := 60 * 60 * 1000

/-- The `shouldEvict` condition of `evictExpired`. -/
def entryExpired (now : ℤ) (e : SessionEntry) : Bool :=
  match e.completedAt with
  | some c => now - c > COMPLETED_TTL_MS
  | none => now - e.createdAt > ABANDONED_TTL_MS

/-- `evictExpired`: removes expired session entries and, for each evicted
session id, its vault entry. A vault key whose session record does not exist
is left alone (the TS loop only visits store keys). -/
def evictExpired (now : ℤ) (w : SessionWorld) : SessionWorld :=
  { store := w.store.filter (fun kv => !entryExpired now kv.2),
    vault := w.vault.filter (fun kv =>
      match lookupKey w.store kv.1 with
      | some e => !entryExpired now e
      | none => true) }

/-- `getSession` (runs lazy eviction first). -/
def getSession (now : ℤ) (w : SessionWorld) (sessionId : String) :
    Option SessionState × SessionWorld :=
  let w' := evictExpired now w
  ((lookupKey w'.store sessionId).map (·.state), w')

/-- `TERMINAL_PAYMENT_STATUSES.has(paymentStatus ?? "")` -/
def isTerminal : Option PayStatus → Bool
  | some .succeeded => true
  | some .failed => true
  | _ => false

/-- `deleteSession`: removes the session record and its vault entry. -/
def deleteSession (w : SessionWorld) (sessionId : String) : SessionWorld :=
  { store := removeKey w.store sessionId, vault := removeKey w.vault sessionId }

/-- `getOrCreateSession` -/
def getOrCreateSession (now : ℤ) (w : SessionWorld) (sessionId userId : String) :
    SessionState × SessionWorld :=
  let r := getSession now w sessionId
  match r.1 with
  | some existing =>
    if isTerminal existing.paymentStatus then
      let w2 := deleteSession r.2 sessionId
      let st := createSessionState sessionId userId now
      (st, { w2 with store := setKey w2.store sessionId
                       { state := st, createdAt := now, completedAt := none } })
    else (existing, r.2)
  | none =>
    let st := createSessionState sessionId userId now
    (st, { r.2 with store := setKey r.2.store sessionId
                      { state := st, createdAt := now, completedAt := none } })

/-- `getPaymentMethodId` -/
def getPaymentMethodId (w : SessionWorld) (sessionId : String) : Option String :=
  lookupKey w.vault sessionId

/-- `storePaymentMethodId` -/
def storePaymentMethodId (w : SessionWorld) (sessionId pmId : String) : SessionWorld :=
  { w with vault := setKey w.vault sessionId pmId }

/-- `clearPaymentMethodId` -/
def clearPaymentMethodId (w : SessionWorld) (sessionId : String) : SessionWorld :=
  { w with vault := removeKey w.vault sessionId }

/-! ## Settlement (`executePayment` in the agent tool set)

The tool reads the session's `credentialsRevealedAt`, the vault reference,
the cart stored under the checkout id and the catalog; the Stripe
`paymentIntents.create` call is an external effect whose outcome is an input
(`Except`-valued: `.ok` an intent, `.error` the thrown message). -/

/-- `CREDENTIAL_TTL_MS` (55 min) -/
def CREDENTIAL_TTL_MS : ℤ := 55 * 60 * 1000

structure StripeIntent where
  id : String
  status : String
  deriving Repr, DecidableEq

/-- A charge request submitted to the processor. -/
structure ChargeReq where
  amountMinor : ℤ
  paymentMethod : String
  idempotencyKey : String
  deriving Repr, DecidableEq

/-- The state `executePayment` touches: the relevant session fields, the
vault reference for the session, the cart under the checkout id, and the
catalog. -/
structure ExecState where
  credentialsRevealedAt : Option ℤ
  vaultRef : Option String
  cart : Option Cart
  catalog : Catalog
  paymentStatus : Option PayStatus
  errorField : Option String
  orderId : Option String
  intentId : Option String
  deriving Repr, DecidableEq

inductive ExecResult where
  | credentialsExpired
  | noPaymentMethod
  | checkoutNotFound
  | wrongStatus (s : CartStatus)
  | staleProduct (msg : String)
  | declined (msg : String)
  | success (orderId intentId : String) (amount : ℚ)
  deriving Repr, DecidableEq

structure ExecOutcome where
  result : ExecResult
  state : ExecState
  charges : List ChargeReq
  deriving Repr, DecidableEq

/-- The price-integrity recomputation loop of `executePayment`. -/
def serverTotalLoop (cat : Catalog) : List CartItem → ℚ → Except String ℚ
  | [], acc => .ok acc
  | i :: rest, acc =>
    match getById cat i.productId with
    | none => .error ("Product " ++ i.productId ++ " no longer exists")
    | some product => serverTotalLoop cat rest (acc + product.price * (i.quantity : ℚ))

/-- `Math.round` (ties to +∞), matching Mathlib `round` on `ℚ`. -/
def jsRound (x : ℚ) : ℤ := round x

/-- Steps 2–5 of `executePayment` (after the credential-TTL check). -/
def executePaymentAfterTtl (checkoutId : String)
    (chargeResp : Except String StripeIntent) (s : ExecState) : ExecOutcome :=
  -- 2. vault read
  match s.vaultRef with
  | none => { result := .noPaymentMethod, state := s, charges := [] }
  | some paymentMethodId =>
    -- 3. cart lookup + price integrity
    match s.cart with
    | none => { result := .checkoutNotFound, state := s, charges := [] }
    | some cart =>
      if cart.status ≠ .checked_out then
        { result := .wrongStatus cart.status, state := s, charges := [] }
      else
        match serverTotalLoop s.catalog cart.items 0 with
        | .error e => { result := .staleProduct e, state := s, charges := [] }
        | .ok rawTotal =>
          let serverTotal : ℚ := (jsRound (rawTotal * 100) : ℚ) / 100
          -- 4. submit the charge
          let charge : ChargeReq :=
            { amountMinor := jsRound (serverTotal * 100),
              paymentMethod := paymentMethodId,
              idempotencyKey := "pay_" ++ checkoutId }
          match chargeResp with
          | .ok intent =>
            -- 5. mark paid (result ignored by the TS code) + clear vault
            let mp := markPaid s.catalog cart
            { result := .success cart.id intent.id serverTotal,
              state := { s with
                catalog := mp.1,
                cart := some (cartAfterMarkPaid s.catalog cart),
                vaultRef := none,
                orderId := some cart.id,
                intentId := some intent.id,
                paymentStatus := some .succeeded },
              charges := [charge] }
          | .error msg =>
            { result := .declined msg,
              state := { s with paymentStatus := some .failed,
                                errorField := some msg },
              charges := [charge] }

/-- `executePayment` -/
def executePayment (now : ℤ) (checkoutId : String)
    (chargeResp : Except String StripeIntent) (s : ExecState) : ExecOutcome :=
  -- 1. credential TTL check
  match s.credentialsRevealedAt with
  | some revealedAt =>
    if now - revealedAt > CREDENTIAL_TTL_MS then
      { result := .credentialsExpired, state := { s with vaultRef := none },
        charges := [] }
    else executePaymentAfterTtl checkoutId chargeResp s
  | none => executePaymentAfterTtl checkoutId chargeResp s

/-! ## Error classifier (`handleNekudaError`)

The `instanceof` chain over the Nekuda SDK exception hierarchy, as a tagged
variant. `sessionErrorWrite` records what (if anything) is written into the
session's `error` field by the branch. -/

inductive NekudaErr where
  | cardNotFound
  | authentication
  | connection (msg : String)
  | validation (msg : String)
  | api (statusCode : ℤ) (msg : String)
  | unknown (msg : String)
  deriving Repr, DecidableEq

structure HandledError where
  errorMsg : String
  retryable : Bool
  sessionErrorWrite : Option String
  deriving Repr, DecidableEq

/-- `handleNekudaError` -/
def handleNekudaError : NekudaErr → HandledError
  | .cardNotFound =>
    { errorMsg := "Card not found. Please add a payment method on the Wallet page.",
      retryable := false, sessionErrorWrite := some "Card not found" }
  | .authentication =>
    { errorMsg := "Payment service configuration error. Please contact support.",
      retryable := false,
      sessionErrorWrite := some "Payment service authentication failed" }
  | .connection _ =>
    { errorMsg := "Could not reach the payment service. Please try again in a moment.",
      retryable := true, sessionErrorWrite := none }
  | .validation msg =>
    { errorMsg := msg, retryable := false, sessionErrorWrite := some msg }
  | .api statusCode msg =>
    let retryable := statusCode = 429 ∨ statusCode = 503
    { errorMsg := msg, retryable := retryable,
      sessionErrorWrite := if retryable then none else some msg }
  | .unknown msg =>
    { errorMsg := msg, retryable := false, sessionErrorWrite := some msg }

/-! ## Tokenization substage (step 2c of `requestCardRevealToken`)

The revealed card fields may be `undefined` or empty (both falsy in the TS
guards); the Stripe tokenization call is an external effect whose outcome is
an input. -/

structure RevealedCard where
  cardNumber : Option String
  cardExpiryDate : Option String
  cardCvv : Option String
  last4Digits : Option String
  deriving Repr, DecidableEq

/-- JS falsiness of a possibly-undefined string (`undefined`/`null`/`""`). -/
def jsStrFalsy : Option String → Bool
  | none => true
  | some s => s = ""

/-- Splitting a character list on a separator (`String.prototype.split`). -/
def splitOnCharAux (sep : Char) : List Char → List Char × List (List Char)
  | [] => ([], [])
  | c :: rest =>
    let r := splitOnCharAux sep rest
    if c = sep then ([], r.1 :: r.2) else (c :: r.1, r.2)

def splitOnChar (sep : Char) (l : List Char) : List (List Char) :=
  let r := splitOnCharAux sep l
  r.1 :: r.2

/-- `Number(s)` on the digit strings fed to it by the expiry parser
(`"MM"`/`"YY"`): `""` is `0`, non-numeric is `NaN` (`none`). -/
def jsNumber (s : String) : Option ℤ :=
  if s = "" then some 0 else (s.toNat?).map Int.ofNat

/-- JS falsiness of `split(...).map(Number)[i]`: out of range (`undefined`),
`NaN`, or `0`. -/
def jsNumFalsy : Option (Option ℤ) → Bool
  | none => true
  | some none => true
  | some (some n) => n = 0

inductive TokenizeResult where
  | incompleteData (missing : String)
  | invalidExpiry
  | tokenizationFailed (msg : String)
  | success (pmId : String) (last4 : Option String)
  deriving Repr, DecidableEq

/-- What the substage returns and writes: `retryable` is the field of the
returned object (absent on success), `sessionErrorWrite` what is merged into
the session's `error` field, `vaultWrite` the stored payment-method id. -/
structure TokenizeOutcome where
  result : TokenizeResult
  retryable : Option Bool
  sessionErrorWrite : Option String
  vaultWrite : Option String
  deriving Repr, DecidableEq

/-- Step 2c of `requestCardRevealToken`: completeness check, expiry parse,
Stripe tokenization (`stripeResp`: `.ok pmId` or the thrown message). -/
def tokenizeStep (card : RevealedCard) (stripeResp : Except String String) :
    TokenizeOutcome :=
  if jsStrFalsy card.cardNumber || jsStrFalsy card.cardExpiryDate ||
      jsStrFalsy card.cardCvv then
    let missing := String.intercalate ", " (List.filterMap id
      [if jsStrFalsy card.cardNumber then some "cardNumber" else none,
       if jsStrFalsy card.cardExpiryDate then some "cardExpiryDate" else none,
       if jsStrFalsy card.cardCvv then some "cardCvv" else none])
    { result := .incompleteData missing, retryable := some true,
      sessionErrorWrite := some "Incomplete card data received", vaultWrite := none }
  else
    let nums := ((splitOnChar '/' (card.cardExpiryDate.getD "").data).map
      (fun l => jsNumber (String.mk l)))
    if jsNumFalsy nums[0]? || jsNumFalsy nums[1]? then
      { result := .invalidExpiry, retryable := some true,
        sessionErrorWrite := some "Invalid card expiry format", vaultWrite := none }
    else
      match stripeResp with
      | .ok pmId =>
        { result := .success pmId card.last4Digits, retryable := none,
          sessionErrorWrite := none, vaultWrite := some pmId }
      | .error msg =>
        { result := .tokenizationFailed msg, retryable := some true,
          sessionErrorWrite := some msg, vaultWrite := none }

/-! ## Checkout handoff tokens (`checkout-token` service)

`base64url(checkoutId) + "." + hex(expiry) + "." + hex(HMAC)`. The HMAC
primitive comes from `node:crypto`, outside this repository; the service is
parameterised over the signing function `sign` (which the source fixes to
`createHmac("sha256", SESSION_SECRET)`), and `hmacSpec` below is a concrete
stand-in. `Buffer.from(checkoutId)` is UTF-8; the byte model
`Char.toNat` agrees with it on the one-byte (Latin-1/ASCII) checkout ids the
repo uses (UUIDs). -/

/-- `CHECKOUT_TOKEN_TTL_MS` (5 minutes) -/
def CHECKOUT_TOKEN_TTL_MS : ℕ := 5 * 60 * 1000

def strToBytes (s : String) : List ℕ := s.data.map Char.toNat

def bytesToStr (l : List ℕ) : String := String.mk (l.map Char.ofNat)

/-- Lowercase hex digit, as produced by `Number.prototype.toString(16)`. -/
def hexDigitChar (n : ℕ) : Char :=
  if n < 10 then Char.ofNat (48 + n) else Char.ofNat (87 + n)

/-- Digit recursion for `toString(16)`; any `fuel > n` suffices. -/
def natToHexCore : ℕ → ℕ → List Char
  | 0, _ => []
  | fuel + 1, n =>
    if n < 16 then [hexDigitChar n]
    else natToHexCore fuel (n / 16) ++ [hexDigitChar (n % 16)]

/-- `toString(16)` of a non-negative number. -/
def natToHex (n : ℕ) : List Char := natToHexCore (n + 1) n

/-- Value of a hex digit, case-insensitive (as in `parseInt(·, 16)` and
`Buffer.from(·, "hex")`). -/
def hexVal (c : Char) : Option ℕ :=
  if '0' ≤ c ∧ c ≤ '9' then some (c.toNat - 48)
  else if 'a' ≤ c ∧ c ≤ 'f' then some (c.toNat - 87)
  else if 'A' ≤ c ∧ c ≤ 'F' then some (c.toNat - 55)
  else none

def parseHexAux : ℕ → List Char → ℕ
  | acc, [] => acc
  | acc, c :: rest =>
    match hexVal c with
    | some v => parseHexAux (acc * 16 + v) rest
    | none => acc

/-- `parseInt(s, 16)` on the strings this service feeds it (no sign, no
`0x` prefix, no leading whitespace): `none` models `NaN`. -/
def parseIntHex (l : List Char) : Option ℕ :=
  match l with
  | [] => none
  | c :: _ => if (hexVal c).isSome then some (parseHexAux 0 l) else none

/-- `Buffer.from(s, "hex")`: bytes from hex-digit pairs, case-insensitive,
stopping at the first invalid pair (or odd leftover character). -/
def hexPairs : List Char → List ℕ
  | c1 :: c2 :: rest =>
    (match hexVal c1, hexVal c2 with
     | some a, some b => (a * 16 + b) :: hexPairs rest
     | _, _ => [])
  | _ => []

/-- base64url alphabet character for a sextet. -/
def b64Char (n : ℕ) : Char :=
  if n < 26 then Char.ofNat (65 + n)
  else if n < 52 then Char.ofNat (97 + (n - 26))
  else if n < 62 then Char.ofNat (48 + (n - 52))
  else if n = 62 then '-'
  else '_'

def b64Val (c : Char) : Option ℕ :=
  if 'A' ≤ c ∧ c ≤ 'Z' then some (c.toNat - 65)
  else if 'a' ≤ c ∧ c ≤ 'z' then some (c.toNat - 97 + 26)
  else if '0' ≤ c ∧ c ≤ '9' then some (c.toNat - 48 + 52)
  else if c = '-' then some 62
  else if c = '_' then some 63
  else none

/-- `Buffer.prototype.toString("base64url")` (unpadded). -/
def b64Encode : List ℕ → List Char
  | [] => []
  | [a] => [b64Char (a / 4), b64Char (a % 4 * 16)]
  | [a, b] => [b64Char (a / 4), b64Char (a % 4 * 16 + b / 16), b64Char (b % 16 * 4)]
  | a :: b :: c :: rest =>
    b64Char (a / 4) :: b64Char (a % 4 * 16 + b / 16) ::
      b64Char (b % 16 * 4 + c / 64) :: b64Char (c % 64) :: b64Encode rest

def b64v (c : Char) : ℕ := (b64Val c).getD 0

/-- `Buffer.from(s, "base64url")`. -/
def b64Decode : List Char → List ℕ
  | [] => []
  | [_] => []
  | [c1, c2] => [b64v c1 * 4 + b64v c2 / 16]
  | [c1, c2, c3] => [b64v c1 * 4 + b64v c2 / 16, b64v c2 % 16 * 16 + b64v c3 / 4]
  | c1 :: c2 :: c3 :: c4 :: rest =>
    (b64v c1 * 4 + b64v c2 / 16) :: (b64v c2 % 16 * 16 + b64v c3 / 4) ::
      (b64v c3 % 4 * 64 + b64v c4) :: b64Decode rest

/-- `generateCheckoutToken`, parameterised over the HMAC `sign` primitive. -/
def generateCheckoutToken (sign : String → String) (nowMint : ℕ)
    (checkoutId : String) : String :=
  let idB64 := b64Encode (strToBytes checkoutId)
  let expHex := natToHex (nowMint + CHECKOUT_TOKEN_TTL_MS)
  let payload := String.mk (idB64 ++ '.' :: expHex)
  String.mk (idB64 ++ '.' :: expHex ++ '.' :: (sign payload).data)

/-- `verifyCheckoutToken`. The `a.length !== b.length || !timingSafeEqual`
signature comparison is equality of the decoded byte lists; `Date.now() >
NaN` is `false`, so an unparseable expiry segment does not trip the expiry
check. -/
def verifyCheckoutToken (sign : String → String) (now : ℕ) (token : String)
    (expectedCheckoutId : String) : Bool :=
  if token = "" then false
  else
    match splitOnChar '.' token.data with
    | [idB64, expHex, providedSig] =>
      let payload := String.mk (idB64 ++ '.' :: expHex)
      if hexPairs providedSig ≠ hexPairs (sign payload).data then false
      else
        let expired : Bool :=
          match parseIntHex expHex with
          | some expiresAt => decide (now > expiresAt)
          | none => false
        if expired then false
        else bytesToStr (b64Decode idB64) = expectedCheckoutId
    | _ => false

/-- Modelled from the spec: the `HMAC-SHA256(secret, payload)` primitive of
`node:crypto`, which is not part of this repository. Modelled as a
deterministic keyed hash producing the 64-character lowercase-hex digest the
spec's token format requires. -/
def hmacSpec (secret msg : String) : String :=
  let h := (strToBytes secret ++ [46] ++ strToBytes msg).foldl
    (fun h b => (h * 16777619 + b) % (2 ^ 256)) 2166136261
  String.mk (List.replicate (64 - (natToHex h).length) '0' ++ natToHex h)

/-! ## Lemmas about the cart operations -/

/-- The catalog's current price for a product (0 when absent; only used for
products shown to exist). -/
def catalogPrice (cat : Catalog) (pid : String) : ℚ :=
  ((getById cat pid).map (·.price)).getD 0

theorem checkoutLoop_spec (cat : Catalog) :
    ∀ (items : List CartItem) (t0 : ℚ) (items' : List CartItem) (T : ℚ),
    checkoutLoop cat items t0 = .ok (items', T) →
    T = t0 + (items'.map (fun i => i.unitPrice * (i.quantity : ℚ))).sum ∧
    (∀ i ∈ items', ∃ p, getById cat i.productId = some p ∧ i.unitPrice = p.price) ∧
    items'.map (·.productId) = items.map (·.productId) ∧
    items'.map (·.quantity) = items.map (·.quantity) := by
  intro items
  induction items with
  | nil =>
    intro t0 items' T h
    simp only [checkoutLoop, Except.ok.injEq, Prod.mk.injEq] at h
    obtain ⟨h1, h2⟩ := h
    subst h1; subst h2
    simp
  | cons i rest ih =>
    intro t0 items' T h
    simp only [checkoutLoop] at h
    cases hp : getById cat i.productId with
    | none => rw [hp] at h; simp at h
    | some p =>
      rw [hp] at h
      cases hr : checkoutLoop cat rest (t0 + p.price * (i.quantity : ℚ)) with
      | error e => simp [hr, Except.map] at h
      | ok pr =>
        obtain ⟨l, T2⟩ := pr
        simp only [hr, Except.map, Except.ok.injEq, Prod.mk.injEq] at h
        obtain ⟨hi, hT⟩ := h
        obtain ⟨hT2, hmem, hpid, hqty⟩ := ih (t0 + p.price * (i.quantity : ℚ)) l T2 hr
        subst hi
        refine ⟨?_, ?_, ?_, ?_⟩
        · rw [← hT, hT2]; simp; ring
        · intro j hj
          rcases List.mem_cons.mp hj with hj | hj
          · subst hj; exact ⟨p, hp, rfl⟩
          · exact hmem j hj
        · simpa using hpid
        · simpa using hqty

/-- C1: after a successful `checkout`, the cart's total is the sum of the
catalog's current prices times quantities (never the caller-supplied values),
and every line item's `unitPrice` has been refreshed to the catalog price. -/
theorem checkout_total_from_catalog (cat : Catalog) (cart cart' : Cart)
    (h : checkout cat cart = .ok cart') :
    cart'.total =
      (cart'.items.map (fun i => catalogPrice cat i.productId * (i.quantity : ℚ))).sum ∧
    (∀ i ∈ cart'.items, ∃ p, getById cat i.productId = some p ∧ i.unitPrice = p.price) ∧
    cart'.items.map (·.productId) = cart.items.map (·.productId) ∧
    cart'.items.map (·.quantity) = cart.items.map (·.quantity) := by
  unfold checkout at h
  split_ifs at h
  cases hl : checkoutLoop cat cart.items 0 with
  | error e => rw [hl] at h; simp at h
  | ok pr =>
    rw [hl] at h
    obtain ⟨items, total⟩ := pr
    simp only [Except.ok.injEq] at h
    subst h
    obtain ⟨hT, hmem, hpid, hqty⟩ := checkoutLoop_spec cat cart.items 0 items total hl
    refine ⟨?_, hmem, hpid, hqty⟩
    have hmap : items.map (fun i => i.unitPrice * (i.quantity : ℚ)) =
        items.map (fun i => catalogPrice cat i.productId * (i.quantity : ℚ)) := by
      apply List.map_congr_left
      intro i hi
      obtain ⟨p, hp, hup⟩ := hmem i hi
      simp [catalogPrice, hp, hup]
    simpa [hmap] using hT

/-- Cart shape invariant: one line item per product, and the cached total is
the recalculated one. -/
def CartWF (cart : Cart) : Prop :=
  (cart.items.map (·.productId)).Nodup ∧ cart.total = recalcTotal cart.items

theorem bumpFirst_map_productId (items : List CartItem) (pid : String) (q : ℕ) :
    (bumpFirst items pid q).map (·.productId) = items.map (·.productId) := by
  induction items with
  | nil => rfl
  | cons i rest ih =>
    by_cases h : i.productId = pid <;> simp [bumpFirst, h, ih]

theorem bumpFirst_sum_quantity (items : List CartItem) (pid : String) (q : ℕ)
    (h : items.any (·.productId = pid) = true) :
    ((bumpFirst items pid q).map (·.quantity)).sum =
      (items.map (·.quantity)).sum + q := by
  induction items with
  | nil => simp at h
  | cons i rest ih =>
    by_cases hi : i.productId = pid
    · simp [bumpFirst, hi]; ring
    · simp only [List.any_cons, Bool.or_eq_true] at h
      rcases h with h | h
      · simp [hi] at h
      · simp [bumpFirst, hi, ih h]; ring

theorem removeItemList_sublist (items : List CartItem) (pid : String)
    (l : List CartItem) (h : removeItemList items pid = some l) :
    l.Sublist items := by
  induction items generalizing l with
  | nil => simp [removeItemList] at h
  | cons i rest ih =>
    by_cases hi : i.productId = pid
    · simp [removeItemList, hi] at h
      subst h
      exact List.sublist_cons_self i _
    · simp only [removeItemList, hi, if_false, Option.map_eq_some'] at h
      obtain ⟨l2, hl2, rfl⟩ := h
      exact (ih l2 hl2).cons₂ i

theorem reduceItemList_map_sublist (items : List CartItem) (pid : String) (a : ℕ)
    (l : List CartItem) (h : reduceItemList items pid a = some l) :
    (l.map (·.productId)).Sublist (items.map (·.productId)) := by
  induction items generalizing l with
  | nil => simp [reduceItemList] at h
  | cons i rest ih =>
    by_cases hi : i.productId = pid
    · simp only [reduceItemList, hi, if_true, Option.some.injEq] at h
      subst h
      by_cases hq : i.quantity - a = 0
      · simp only [hq, if_true]
        exact (List.sublist_cons_self i rest).map _
      · simp [hq, hi]
    · simp only [reduceItemList, hi, if_false, Option.map_eq_some'] at h
      obtain ⟨l2, hl2, rfl⟩ := h
      simpa using (ih l2 hl2).cons₂ i.productId

/-- C10: every cart operation preserves the shape invariant (one line per
product, total = recalculated total), and `addItem` on a product already in
the cart bumps that line's quantity instead of appending a duplicate line. -/
theorem cart_ops_preserve_wf :
    (∀ cid uid, CartWF (createCart cid uid)) ∧
    (∀ cat cart pid q cart', CartWF cart → addItem cat cart pid q = .ok cart' →
      CartWF cart' ∧
      (cart.items.any (·.productId = pid) = true →
        cart'.items.map (·.productId) = cart.items.map (·.productId) ∧
        (cart'.items.map (·.quantity)).sum = (cart.items.map (·.quantity)).sum + q)) ∧
    (∀ cart pid cart', CartWF cart → removeItem cart pid = .ok cart' → CartWF cart') ∧
    (∀ cart pid a cart', CartWF cart → reduceItem cart pid a = .ok cart' → CartWF cart') ∧
    (∀ cart cart', clearCart cart = .ok cart' → CartWF cart') ∧
    (∀ cat cart cart', CartWF cart → checkout cat cart = .ok cart' → CartWF cart') := by
  refine ⟨?_, ?_, ?_, ?_, ?_, ?_⟩
  · intro cid uid
    exact ⟨List.nodup_nil, by simp [createCart, recalcTotal]⟩
  · intro cat cart pid q cart' hwf h
    unfold addItem at h
    by_cases hst : cart.status ≠ CartStatus.active
    · rw [if_pos hst] at h; simp at h
    rw [if_neg hst] at h
    cases hp : getById cat pid with
    | none => simp [hp] at h
    | some p =>
      simp only [hp] at h
      by_cases hstock : p.stock < (q : ℤ)
      · rw [if_pos hstock] at h; simp at h
      rw [if_neg hstock] at h
      by_cases hin : cart.items.any (·.productId = pid) = true
      · rw [if_pos hin] at h
        simp only [Except.ok.injEq] at h
        subst h
        refine ⟨⟨?_, rfl⟩, ?_⟩
        · rw [bumpFirst_map_productId]; exact hwf.1
        · intro _
          exact ⟨bumpFirst_map_productId _ _ _, bumpFirst_sum_quantity _ _ _ hin⟩
      · rw [if_neg hin] at h
        simp only [Except.ok.injEq] at h
        subst h
        refine ⟨⟨?_, rfl⟩, fun hc => absurd hc hin⟩
        have hnot : pid ∉ cart.items.map (·.productId) := by
          simp only [List.any_eq_true, decide_eq_true_eq] at hin
          simp only [List.mem_map]
          rintro ⟨i, hi, hpid⟩
          exact hin ⟨i, hi, hpid⟩
        simp [List.nodup_append, hwf.1, hnot]
  · intro cart pid cart' hwf h
    unfold removeItem at h
    split_ifs at h
    cases hl : removeItemList cart.items pid with
    | none => rw [hl] at h; simp at h
    | some items =>
      rw [hl] at h
      simp only [Except.ok.injEq] at h
      subst h
      refine ⟨?_, rfl⟩
      exact hwf.1.sublist ((removeItemList_sublist _ _ _ hl).map _)
  · intro cart pid a cart' hwf h
    unfold reduceItem at h
    split_ifs at h
    cases hl : reduceItemList cart.items pid a with
    | none => rw [hl] at h; simp at h
    | some items =>
      rw [hl] at h
      simp only [Except.ok.injEq] at h
      subst h
      refine ⟨?_, rfl⟩
      exact hwf.1.sublist (reduceItemList_map_sublist _ _ _ _ hl)
  · intro cart cart' h
    unfold clearCart at h
    split_ifs at h
    simp only [Except.ok.injEq] at h
    subst h
    exact ⟨List.nodup_nil, by simp [recalcTotal]⟩
  · intro cat cart cart' hwf h
    unfold checkout at h
    split_ifs at h
    cases hl : checkoutLoop cat cart.items 0 with
    | error e => rw [hl] at h; simp at h
    | ok pr =>
      rw [hl] at h
      obtain ⟨items, total⟩ := pr
      simp only [Except.ok.injEq] at h
      obtain ⟨hT, _, hpid, _⟩ := checkoutLoop_spec cat cart.items 0 items total hl
      subst h
      refine ⟨?_, ?_⟩
      · simpa [hpid] using hwf.1
      · simpa [recalcTotal] using hT

/-! ## Lemmas about `markPaid` and stock -/

instance {ε α : Type} [DecidableEq ε] [DecidableEq α] : DecidableEq (Except ε α)
  | .error e, .error f => decidable_of_iff (e = f) (by simp)
  | .error _, .ok _ => isFalse (by simp)
  | .ok _, .error _ => isFalse (by simp)
  | .ok x, .ok y => decidable_of_iff (x = y) (by simp)

theorem updateStock_none_of_insufficient (cat : Catalog) (pid : String) (q : ℕ)
    (p : Product) (hp : getById cat pid = some p) (hs : p.stock < (q : ℤ)) :
    updateStock cat pid q = none := by
  induction cat with
  | nil => simp [getById] at hp
  | cons r rest ih =>
    by_cases hr : r.id = pid
    · simp only [getById, hr, if_true, Option.some.injEq] at hp
      subst hp
      simp [updateStock, hr, hs]
    · simp only [getById, hr, if_false] at hp
      simp [updateStock, hr, ih hp]

theorem updateStock_getById (cat : Catalog) (pid0 : String) (q : ℕ) (cat' : Catalog)
    (h : updateStock cat pid0 q = some cat') :
    ∀ pid p, getById cat pid = some p →
      ∃ p', getById cat' pid = some p' ∧ p'.id = p.id ∧ p'.price = p.price ∧
        p'.stock ≤ p.stock ∧ (pid ≠ pid0 → p' = p) := by
  induction cat generalizing cat' with
  | nil => simp [updateStock] at h
  | cons r rest ih =>
    intro pid p hp
    simp only [updateStock] at h
    by_cases hr : r.id = pid0
    · rw [if_pos hr] at h
      by_cases hs : r.stock < (q : ℤ)
      · rw [if_pos hs] at h; simp at h
      · rw [if_neg hs] at h
        simp only [Option.some.injEq] at h
        subst h
        simp only [getById] at hp
        by_cases hid : r.id = pid
        · rw [if_pos hid] at hp
          simp only [Option.some.injEq] at hp
          subst hp
          refine ⟨{ r with stock := r.stock - (q : ℤ) }, ?_, rfl, rfl,
            by simp only; omega, ?_⟩
          · simp only [getById]
            rw [if_pos hid]
          · intro hne
            exact absurd (by rw [← hid]; exact hr) hne
        · rw [if_neg hid] at hp
          refine ⟨p, ?_, rfl, rfl, le_refl _, fun _ => rfl⟩
          simp only [getById]
          rw [if_neg hid, hp]
    · rw [if_neg hr] at h
      rw [Option.map_eq_some'] at h
      obtain ⟨rest', hrest, rfl⟩ := h
      simp only [getById] at hp
      by_cases hid : r.id = pid
      · rw [if_pos hid] at hp
        simp only [Option.some.injEq] at hp
        subst hp
        refine ⟨r, ?_, rfl, rfl, le_refl _, fun _ => rfl⟩
        simp only [getById]
        rw [if_pos hid]
      · rw [if_neg hid] at hp
        obtain ⟨p', hp', hid', hpr, hle, heq⟩ := ih rest' hrest pid p hp
        refine ⟨p', ?_, hid', hpr, hle, heq⟩
        simp only [getById]
        rw [if_neg hid, hp']

theorem updateStock_nonneg (cat : Catalog) (pid : String) (q : ℕ) (cat' : Catalog)
    (h : updateStock cat pid q = some cat') (hn : ∀ p ∈ cat, 0 ≤ p.stock) :
    ∀ p ∈ cat', 0 ≤ p.stock := by
  induction cat generalizing cat' with
  | nil => simp [updateStock] at h
  | cons r rest ih =>
    by_cases hr : r.id = pid
    · simp only [updateStock, hr, if_true] at h
      by_cases hs : r.stock < (q : ℤ)
      · simp [hs] at h
      · simp only [hs, if_false, Option.some.injEq] at h
        subst h
        intro p hp
        rcases List.mem_cons.mp hp with hp | hp
        · subst hp; simp; omega
        · exact hn p (List.mem_cons_of_mem _ hp)
    · simp only [updateStock, hr, if_false, Option.map_eq_some'] at h
      obtain ⟨rest', hrest, rfl⟩ := h
      intro p hp
      rcases List.mem_cons.mp hp with hp | hp
      · subst hp; exact hn p (List.mem_cons_self _ _)
      · exact ih rest' hrest (fun p hp => hn p (List.mem_cons_of_mem _ hp)) p hp

theorem markPaidLoop_err (items : List CartItem) (cat : Catalog) (item : CartItem)
    (p : Product) (hmem : item ∈ items)
    (hp : getById cat item.productId = some p)
    (hs : p.stock < (item.quantity : ℤ)) :
    (markPaidLoop cat items).2.isSome = true := by
  induction items generalizing cat p with
  | nil => simp at hmem
  | cons i rest ih =>
    rcases List.mem_cons.mp hmem with hmem' | hmem'
    · subst hmem'
      rw [markPaidLoop, updateStock_none_of_insufficient cat item.productId
        item.quantity p hp hs]
      simp
    · cases hu : updateStock cat i.productId i.quantity with
      | none => rw [markPaidLoop, hu]; simp
      | some cat' =>
        rw [markPaidLoop, hu]
        obtain ⟨p', hp', _, _, hle, _⟩ := updateStock_getById cat _ _ cat' hu
          item.productId p hp
        exact ih cat' p' hmem' hp' (by omega)

theorem markPaidLoop_nonneg (items : List CartItem) (cat : Catalog)
    (hn : ∀ p ∈ cat, 0 ≤ p.stock) :
    ∀ p ∈ (markPaidLoop cat items).1, 0 ≤ p.stock := by
  induction items generalizing cat with
  | nil => simpa [markPaidLoop] using hn
  | cons i rest ih =>
    cases hu : updateStock cat i.productId i.quantity with
    | none => rw [markPaidLoop, hu]; simpa using hn
    | some cat' =>
      rw [markPaidLoop, hu]
      exact ih cat' (updateStock_nonneg cat _ _ cat' hu hn)

/-- C2 (amended): when a `checked_out` cart has a line item whose quantity
exceeds that product's current stock, `markPaid` returns an error, the stored
cart stays `checked_out`, and no stock goes negative — but stock decrements
already applied to line items processed before the failing one persist (the
loop does not roll back). -/
theorem markPaid_insufficient_stock (cat : Catalog) (cart : Cart) (item : CartItem)
    (p : Product) (hst : cart.status = .checked_out) (hmem : item ∈ cart.items)
    (hp : getById cat item.productId = some p)
    (hs : p.stock < (item.quantity : ℤ)) :
    (∃ e, (markPaid cat cart).2 = .error e) ∧
    cartAfterMarkPaid cat cart = cart ∧
    (cartAfterMarkPaid cat cart).status = .checked_out ∧
    ((∀ r ∈ cat, 0 ≤ r.stock) → ∀ r ∈ (markPaid cat cart).1, 0 ≤ r.stock) := by
  have herr := markPaidLoop_err cart.items cat item p hmem hp hs
  have hres : ∃ e, (markPaid cat cart).2 = .error e := by
    unfold markPaid
    rw [if_neg (by simp [hst])]
    cases hl : markPaidLoop cat cart.items with
    | mk cat' err =>
      cases err with
      | none => rw [hl] at herr; simp at herr
      | some e => exact ⟨e, rfl⟩
  obtain ⟨e, he⟩ := hres
  have hcart : cartAfterMarkPaid cat cart = cart := by
    unfold cartAfterMarkPaid
    rw [he]
  refine ⟨⟨e, he⟩, hcart, by rw [hcart, hst], ?_⟩
  intro hn
  have h1 : (markPaid cat cart).1 = (markPaidLoop cat cart.items).1 := by
    unfold markPaid
    rw [if_neg (by simp [hst])]
    cases hl : markPaidLoop cat cart.items with
    | mk cat' err => cases err <;> simp
  rw [h1]
  exact markPaidLoop_nonneg cart.items cat hn

def catC2 : Catalog :=
  [⟨"prod_a", "Product A", 5, 5⟩, ⟨"prod_b", "Product B", 1, 0⟩]

def cartC2 : Cart :=
  { id := "cart_2", userId := "user", status := .checked_out, total := 6,
    items := [⟨"prod_a", "Product A", 1, 5⟩, ⟨"prod_b", "Product B", 1, 1⟩] }

/-- C2, counterexample to "no product's stock is changed": with product A in
stock (5) and product B out of stock (0), `markPaid` on the checked-out cart
[1×A, 1×B] fails — yet product A's stock has been decremented from 5 to 4. -/
theorem markPaid_partial_decrement_persists :
    cartC2.status = .checked_out ∧
    getById catC2 "prod_b" = some ⟨"prod_b", "Product B", 1, 0⟩ ∧
    markPaid catC2 cartC2 =
      ([⟨"prod_a", "Product A", 5, 4⟩, ⟨"prod_b", "Product B", 1, 0⟩],
        .error "Failed to decrement stock for prod_b") ∧
    getById (markPaid catC2 cartC2).1 "prod_a" ≠ getById catC2 "prod_a" := by
  refine ⟨rfl, by decide, by decide, by decide⟩

/-! ## Lemmas about the session store -/

theorem lookupKey_filter {α : Type} (l : List (String × α)) (p : String × α → Bool)
    (k : String) (v : α) (hl : lookupKey l k = some v) (hp : p (k, v) = true) :
    lookupKey (l.filter p) k = some v := by
  induction l with
  | nil => simp [lookupKey] at hl
  | cons kv rest ih =>
    obtain ⟨k1, v1⟩ := kv
    by_cases hk : k1 = k
    · subst hk
      simp only [lookupKey, if_true, Option.some.injEq] at hl
      subst hl
      simp [List.filter, hp, lookupKey]
    · simp only [lookupKey, if_neg hk] at hl
      cases hpk : p (k1, v1) <;> simp [List.filter, hpk, lookupKey, hk, ih hl]

theorem lookupKey_none_filter {α : Type} (l : List (String × α))
    (p : String × α → Bool) (k : String) (hl : lookupKey l k = none) :
    lookupKey (l.filter p) k = none := by
  induction l with
  | nil => simp [lookupKey]
  | cons kv rest ih =>
    obtain ⟨k1, v1⟩ := kv
    by_cases hk : k1 = k
    · subst hk; simp [lookupKey] at hl
    · simp only [lookupKey, if_neg hk] at hl
      cases hpk : p (k1, v1) <;> simp [List.filter, hpk, lookupKey, hk, ih hl]

theorem lookupKey_filter_none_of {α : Type} (l : List (String × α))
    (p : String × α → Bool) (k : String) (hp : ∀ v, p (k, v) = false) :
    lookupKey (l.filter p) k = none := by
  induction l with
  | nil => simp [lookupKey]
  | cons kv rest ih =>
    obtain ⟨k1, v1⟩ := kv
    by_cases hk : k1 = k
    · subst hk
      simp [List.filter, hp v1, ih]
    · cases hpk : p (k1, v1) <;> simp [List.filter, hpk, lookupKey, hk, ih]

theorem mem_keys_of_lookupKey_some {α : Type} (l : List (String × α)) (k : String)
    (v : α) (h : lookupKey l k = some v) : k ∈ l.map Prod.fst := by
  induction l with
  | nil => simp [lookupKey] at h
  | cons kv rest ih =>
    obtain ⟨k1, v1⟩ := kv
    by_cases hk : k1 = k
    · simp [hk]
    · simp only [lookupKey, if_neg hk] at h
      simp [ih h]

theorem lookupKey_filter_none_nodup {α : Type} (l : List (String × α))
    (p : String × α → Bool) (k : String) (v : α)
    (hnd : (l.map Prod.fst).Nodup) (hl : lookupKey l k = some v)
    (hp : p (k, v) = false) :
    lookupKey (l.filter p) k = none := by
  induction l with
  | nil => simp [lookupKey] at hl
  | cons kv rest ih =>
    obtain ⟨k1, v1⟩ := kv
    simp only [List.map_cons, List.nodup_cons] at hnd
    by_cases hk : k1 = k
    · subst hk
      simp only [lookupKey, if_true, Option.some.injEq] at hl
      subst hl
      have hrest : lookupKey rest k1 = none := by
        cases hr : lookupKey rest k1 with
        | none => rfl
        | some v2 => exact absurd (mem_keys_of_lookupKey_some rest k1 v2 hr) hnd.1
      simp [List.filter, hp]
      exact lookupKey_none_filter rest p k1 hrest
    · simp only [lookupKey, if_neg hk] at hl
      cases hpk : p (k1, v1) <;>
        simp [List.filter, hpk, lookupKey, hk, ih hnd.2 hl]

theorem lookupKey_removeKey_self {α : Type} (l : List (String × α)) (k : String) :
    lookupKey (removeKey l k) k = none := by
  induction l with
  | nil => simp [removeKey, lookupKey]
  | cons kv rest ih =>
    obtain ⟨k1, v1⟩ := kv
    by_cases hk : k1 = k
    · simp [removeKey, hk, ih]
    · simp [removeKey, hk, lookupKey, ih]

theorem lookupKey_append {α : Type} (l1 l2 : List (String × α)) (k : String) :
    lookupKey (l1 ++ l2) k =
      (match lookupKey l1 k with
       | some v => some v
       | none => lookupKey l2 k) := by
  induction l1 with
  | nil => simp [lookupKey]
  | cons kv rest ih =>
    obtain ⟨k1, v1⟩ := kv
    by_cases hk : k1 = k <;> simp [lookupKey, hk, ih]

theorem lookupKey_setKey_self {α : Type} (l : List (String × α)) (k : String) (v : α) :
    lookupKey (setKey l k v) k = some v := by
  unfold setKey
  rw [lookupKey_append, lookupKey_removeKey_self]
  simp [lookupKey]

/-- C8: `getOrCreate` on a live session: when the payment status is terminal
it deletes the record and returns a fresh one — same session id, every
progress field back at its default; when it is not terminal it returns the
existing record unchanged. -/
theorem getOrCreate_reset (now : ℤ) (w : SessionWorld) (sid uid : String)
    (e : SessionEntry) (hl : lookupKey w.store sid = some e)
    (hx : entryExpired now e = false) :
    (isTerminal e.state.paymentStatus = true →
      (getOrCreateSession now w sid uid).1 = createSessionState sid uid now ∧
      (getOrCreateSession now w sid uid).1.sessionId = sid ∧
      (getOrCreateSession now w sid uid).1.cartId = none ∧
      (getOrCreateSession now w sid uid).1.cartStatus = none ∧
      (getOrCreateSession now w sid uid).1.cartTotal = none ∧
      (getOrCreateSession now w sid uid).1.checkoutId = none ∧
      (getOrCreateSession now w sid uid).1.mandateId = none ∧
      (getOrCreateSession now w sid uid).1.mandateStatus = none ∧
      (getOrCreateSession now w sid uid).1.revealTokenObtained = false ∧
      (getOrCreateSession now w sid uid).1.credentialsRevealed = false ∧
      (getOrCreateSession now w sid uid).1.credentialsRevealedAt = none ∧
      (getOrCreateSession now w sid uid).1.orderId = none ∧
      (getOrCreateSession now w sid uid).1.stripePaymentIntentId = none ∧
      (getOrCreateSession now w sid uid).1.paymentStatus = none ∧
      (getOrCreateSession now w sid uid).1.error = none ∧
      lookupKey (getOrCreateSession now w sid uid).2.store sid =
        some ⟨createSessionState sid uid now, now, none⟩) ∧
    (isTerminal e.state.paymentStatus = false →
      (getOrCreateSession now w sid uid).1 = e.state ∧
      lookupKey (getOrCreateSession now w sid uid).2.store sid = some e) := by
  have hev : lookupKey (evictExpired now w).store sid = some e :=
    lookupKey_filter _ _ _ _ hl (by simp [hx])
  constructor
  · intro ht
    unfold getOrCreateSession getSession
    simp [hev, ht, lookupKey_setKey_self, createSessionState]
  · intro ht
    unfold getOrCreateSession getSession
    simp [hev, ht]

theorem executePaymentAfterTtl_success_vault (cid : String)
    (resp : Except String StripeIntent) (s : ExecState) (o i : String) (a : ℚ) :
    (executePaymentAfterTtl cid resp s).result = .success o i a →
    (executePaymentAfterTtl cid resp s).state.vaultRef = none := by
  unfold executePaymentAfterTtl
  split
  · intro h; simp at h
  · split
    · intro h; simp at h
    · split
      · intro h; simp at h
      · split
        · intro h; simp at h
        · split
          · intro h; simp
          · intro h; simp at h

/-- A session's vault entry does not survive settlement success. -/
theorem executePayment_success_clears_vault (now : ℤ) (cid : String)
    (resp : Except String StripeIntent) (s : ExecState) (o i : String) (a : ℚ) :
    (executePayment now cid resp s).result = .success o i a →
    (executePayment now cid resp s).state.vaultRef = none := by
  unfold executePayment
  split
  · split
    · intro h; simp at h
    · exact executePaymentAfterTtl_success_vault cid resp s o i a
  · exact executePaymentAfterTtl_success_vault cid resp s o i a

/-! ## Settlement theorems -/

/-- The credential-TTL precondition passes (no reveal timestamp, or within
the 55-minute window). -/
def ttlOk (now : ℤ) (s : ExecState) : Prop :=
  ∀ t, s.credentialsRevealedAt = some t → now - t ≤ CREDENTIAL_TTL_MS

theorem executePaymentAfterTtl_ne_credExpired (cid : String)
    (resp : Except String StripeIntent) (s : ExecState) :
    (executePaymentAfterTtl cid resp s).result ≠ .credentialsExpired := by
  unfold executePaymentAfterTtl
  split
  · simp
  · split
    · simp
    · split
      · simp
      · split
        · simp
        · split
          · simp
          · simp

theorem executePayment_ttlOk (now : ℤ) (cid : String)
    (resp : Except String StripeIntent) (s : ExecState) (h : ttlOk now s) :
    executePayment now cid resp s = executePaymentAfterTtl cid resp s := by
  unfold executePayment
  cases hcr : s.credentialsRevealedAt with
  | some t =>
    have hle := h t hcr
    dsimp only
    rw [if_neg (not_lt.mpr hle)]
  | none => rfl

/-- C3: `executePayment` checks the credential TTL first — a reveal
timestamp older than 55 minutes yields `CredentialsExpired`, clears the
vault and submits no charge, whatever the vault and cart contain; within the
window the TTL check passes; with the TTL passed, a missing vault reference
yields `NoPaymentMethod` whatever the cart contains, and only then is the
cart's existence and `checked_out` status checked. -/
theorem executePayment_precondition_order :
    (∀ (now : ℤ) (cid : String) (resp : Except String StripeIntent)
        (s : ExecState) (t : ℤ), s.credentialsRevealedAt = some t →
      now - t > CREDENTIAL_TTL_MS →
      executePayment now cid resp s =
        { result := .credentialsExpired, state := { s with vaultRef := none },
          charges := [] }) ∧
    (∀ (now : ℤ) (cid : String) (resp : Except String StripeIntent)
        (s : ExecState) (t : ℤ), s.credentialsRevealedAt = some t →
      now - t ≤ CREDENTIAL_TTL_MS →
      (executePayment now cid resp s).result ≠ .credentialsExpired) ∧
    (∀ (now : ℤ) (cid : String) (resp : Except String StripeIntent)
        (s : ExecState), ttlOk now s → s.vaultRef = none →
      executePayment now cid resp s =
        { result := .noPaymentMethod, state := s, charges := [] }) ∧
    (∀ (now : ℤ) (cid : String) (resp : Except String StripeIntent)
        (s : ExecState) (pm : String), ttlOk now s → s.vaultRef = some pm →
      s.cart = none →
      executePayment now cid resp s =
        { result := .checkoutNotFound, state := s, charges := [] }) ∧
    (∀ (now : ℤ) (cid : String) (resp : Except String StripeIntent)
        (s : ExecState) (pm : String) (cart : Cart), ttlOk now s →
      s.vaultRef = some pm → s.cart = some cart →
      cart.status ≠ .checked_out →
      executePayment now cid resp s =
        { result := .wrongStatus cart.status, state := s, charges := [] }) := by
  refine ⟨?_, ?_, ?_, ?_, ?_⟩
  · intro now cid resp s t hcr hexp
    unfold executePayment
    rw [hcr]
    simp only [if_pos hexp]
  · intro now cid resp s t hcr hle
    rw [executePayment_ttlOk now cid resp s (fun t' ht' => by
      rw [hcr] at ht'; injection ht' with h'; omega)]
    exact executePaymentAfterTtl_ne_credExpired cid resp s
  · intro now cid resp s httl hv
    rw [executePayment_ttlOk now cid resp s httl]
    unfold executePaymentAfterTtl
    rw [hv]
  · intro now cid resp s pm httl hv hc
    rw [executePayment_ttlOk now cid resp s httl]
    unfold executePaymentAfterTtl
    rw [hv, hc]
  · intro now cid resp s pm cart httl hv hc hcs
    rw [executePayment_ttlOk now cid resp s httl]
    unfold executePaymentAfterTtl
    rw [hv, hc]
    simp only [if_pos hcs]

theorem updateStock_isSome (cat : Catalog) (pid : String) (q : ℕ) (p : Product)
    (hp : getById cat pid = some p) (hq : (q : ℤ) ≤ p.stock) :
    ∃ cat', updateStock cat pid q = some cat' := by
  induction cat with
  | nil => simp [getById] at hp
  | cons r rest ih =>
    by_cases hr : r.id = pid
    · simp only [getById, hr, if_true, Option.some.injEq] at hp
      subst hp
      refine ⟨{ r with stock := r.stock - (q : ℤ) } :: rest, ?_⟩
      simp only [updateStock, hr, if_true]
      rw [if_neg (by omega)]
    · simp only [getById, hr, if_false] at hp
      obtain ⟨cat', hcat'⟩ := ih hp
      exact ⟨r :: cat', by simp [updateStock, hr, hcat']⟩

theorem markPaidLoop_ok (items : List CartItem) (cat : Catalog)
    (hnd : (items.map (·.productId)).Nodup)
    (hs : ∀ i ∈ items, ∃ p, getById cat i.productId = some p ∧
      (i.quantity : ℤ) ≤ p.stock) :
    (markPaidLoop cat items).2 = none := by
  induction items generalizing cat with
  | nil => rfl
  | cons i rest ih =>
    simp only [List.map_cons, List.nodup_cons] at hnd
    obtain ⟨p, hp, hq⟩ := hs i (List.mem_cons_self _ _)
    obtain ⟨cat', hcat'⟩ := updateStock_isSome cat i.productId i.quantity p hp hq
    rw [markPaidLoop, hcat']
    refine ih cat' hnd.2 ?_
    intro j hj
    obtain ⟨pj, hpj, hqj⟩ := hs j (List.mem_cons_of_mem _ hj)
    have hne : j.productId ≠ i.productId := by
      intro he
      exact hnd.1 (he ▸ List.mem_map_of_mem _ hj)
    obtain ⟨p', hp', _, _, _, heq⟩ :=
      updateStock_getById cat i.productId i.quantity cat' hcat' j.productId pj hpj
    rw [heq hne] at hp'
    exact ⟨pj, hp', hqj⟩

theorem markPaid_ok (cat : Catalog) (cart : Cart) (hst : cart.status = .checked_out)
    (hnd : (cart.items.map (·.productId)).Nodup)
    (hs : ∀ i ∈ cart.items, ∃ p, getById cat i.productId = some p ∧
      (i.quantity : ℤ) ≤ p.stock) :
    (markPaid cat cart).2 = .ok { cart with status := .paid } := by
  unfold markPaid
  rw [if_neg (by simp [hst])]
  have hloop := markPaidLoop_ok cart.items cat hnd hs
  cases hl : markPaidLoop cat cart.items with
  | mk cat' err =>
    rw [hl] at hloop
    simp only at hloop
    subst hloop
    rfl

/-- C4 (amended): on a successful charge with every line item still in
sufficient stock, `executePayment` submits exactly one charge with
idempotency key `"pay_" ++ checkoutId`, marks the cart paid (decrementing
stock), clears the vault, and records order id, intent id and terminal
`succeeded` status. (When stock has meanwhile become insufficient, the charge
still goes through and succeeds but the cart stays `checked_out`: the code
ignores `markPaid`'s result — see the counterexample.) -/
theorem executePayment_success_effects (now : ℤ) (cid : String)
    (intent : StripeIntent) (s : ExecState) (pm : String) (cart : Cart)
    (rawTotal : ℚ) (httl : ttlOk now s) (hv : s.vaultRef = some pm)
    (hc : s.cart = some cart) (hcs : cart.status = .checked_out)
    (hst : serverTotalLoop s.catalog cart.items 0 = .ok rawTotal)
    (hnd : (cart.items.map (·.productId)).Nodup)
    (hstock : ∀ i ∈ cart.items, ∃ p, getById s.catalog i.productId = some p ∧
      (i.quantity : ℤ) ≤ p.stock) :
    executePayment now cid (.ok intent) s =
      { result := .success cart.id intent.id ((jsRound (rawTotal * 100) : ℚ) / 100),
        state := { s with
          catalog := (markPaid s.catalog cart).1,
          cart := some { cart with status := .paid },
          vaultRef := none,
          orderId := some cart.id,
          intentId := some intent.id,
          paymentStatus := some .succeeded },
        charges := [{ amountMinor :=
                        jsRound (((jsRound (rawTotal * 100) : ℚ) / 100) * 100),
                      paymentMethod := pm,
                      idempotencyKey := "pay_" ++ cid }] } ∧
    (markPaid s.catalog cart).2 = .ok { cart with status := .paid } := by
  have hmp := markPaid_ok s.catalog cart hcs hnd hstock
  refine ⟨?_, hmp⟩
  rw [executePayment_ttlOk now cid _ s httl]
  unfold executePaymentAfterTtl
  rw [hv]
  dsimp only
  rw [hc]
  dsimp only
  rw [if_neg (by simp [hcs])]
  rw [hst]
  dsimp only
  unfold cartAfterMarkPaid
  rw [hmp]

/-- C5: on processor decline, `executePayment` records terminal `failed`
status with the processor's message, leaves the cart `checked_out` (not
paid) and leaves the catalog's stock untouched. -/
theorem executePayment_decline_effects (now : ℤ) (cid : String) (msg : String)
    (s : ExecState) (pm : String) (cart : Cart) (rawTotal : ℚ)
    (httl : ttlOk now s) (hv : s.vaultRef = some pm) (hc : s.cart = some cart)
    (hcs : cart.status = .checked_out)
    (hst : serverTotalLoop s.catalog cart.items 0 = .ok rawTotal) :
    executePayment now cid (.error msg) s =
      { result := .declined msg,
        state := { s with paymentStatus := some .failed, errorField := some msg },
        charges := [{ amountMinor :=
                        jsRound (((jsRound (rawTotal * 100) : ℚ) / 100) * 100),
                      paymentMethod := pm,
                      idempotencyKey := "pay_" ++ cid }] } ∧
    (executePayment now cid (.error msg) s).state.cart = some cart ∧
    cart.status = .checked_out ∧
    (executePayment now cid (.error msg) s).state.catalog = s.catalog ∧
    (executePayment now cid (.error msg) s).state.paymentStatus = some .failed ∧
    (executePayment now cid (.error msg) s).state.errorField = some msg := by
  have heq : executePayment now cid (.error msg) s =
      { result := .declined msg,
        state := { s with paymentStatus := some .failed, errorField := some msg },
        charges := [{ amountMinor :=
                        jsRound (((jsRound (rawTotal * 100) : ℚ) / 100) * 100),
                      paymentMethod := pm,
                      idempotencyKey := "pay_" ++ cid }] } := by
    rw [executePayment_ttlOk now cid _ s httl]
    unfold executePaymentAfterTtl
    rw [hv]
    dsimp only
    rw [hc]
    dsimp only
    rw [if_neg (by simp [hcs])]
    rw [hst]
  refine ⟨heq, ?_, hcs, ?_, ?_, ?_⟩ <;> rw [heq]
  exact hc

def catC4 : Catalog := [⟨"prod_x", "Product X", 5, 0⟩]

def cartC4 : Cart :=
  { id := "cart_4", userId := "user", status := .checked_out, total := 5,
    items := [⟨"prod_x", "Product X", 1, 5⟩] }

def stateC4 : ExecState :=
  { credentialsRevealedAt := none, vaultRef := some "pm_1", cart := some cartC4,
    catalog := catC4, paymentStatus := none, errorField := none,
    orderId := none, intentId := none }

/-- C4, counterexample to "marks the cart paid": with the product's stock
meanwhile at 0, the charge succeeds and `succeeded` is recorded, yet the cart
is still `checked_out` — `executePayment` ignores `markPaid`'s failure. -/
theorem executePayment_success_without_markPaid :
    (executePayment 0 "cart_4" (.ok ⟨"pi_1", "succeeded"⟩) stateC4).result =
      .success "cart_4" "pi_1" 5 ∧
    (executePayment 0 "cart_4" (.ok ⟨"pi_1", "succeeded"⟩) stateC4).state.paymentStatus =
      some .succeeded ∧
    (executePayment 0 "cart_4" (.ok ⟨"pi_1", "succeeded"⟩) stateC4).state.cart =
      some cartC4 ∧
    cartC4.status = .checked_out := by
  refine ⟨?_, ?_, ?_, rfl⟩ <;>
    norm_num [executePayment, executePaymentAfterTtl, stateC4, cartC4, catC4,
      serverTotalLoop, getById, jsRound, cartAfterMarkPaid, markPaid,
      markPaidLoop, updateStock]

/-- C9: a vault entry never outlives its session — explicit deletion, TTL
eviction and the terminal-session reset each delete the session's vault
entry, and successful settlement clears it too; afterwards a read of the
payment-method reference for that session is absent. -/
theorem vault_never_outlives_session :
    (∀ (w : SessionWorld) (sid : String),
      getPaymentMethodId (deleteSession w sid) sid = none) ∧
    (∀ (now : ℤ) (w : SessionWorld) (sid : String) (e : SessionEntry),
      lookupKey w.store sid = some e → entryExpired now e = true →
      getPaymentMethodId (evictExpired now w) sid = none ∧
      ((w.store.map Prod.fst).Nodup →
        lookupKey (evictExpired now w).store sid = none)) ∧
    (∀ (now : ℤ) (w : SessionWorld) (sid uid : String) (e : SessionEntry),
      lookupKey w.store sid = some e → entryExpired now e = false →
      isTerminal e.state.paymentStatus = true →
      getPaymentMethodId (getOrCreateSession now w sid uid).2 sid = none) ∧
    (∀ (now : ℤ) (cid : String) (resp : Except String StripeIntent)
      (s : ExecState) (o i : String) (a : ℚ),
      (executePayment now cid resp s).result = .success o i a →
      (executePayment now cid resp s).state.vaultRef = none) := by
  refine ⟨?_, ?_, ?_, ?_⟩
  · intro w sid
    exact lookupKey_removeKey_self _ _
  · intro now w sid e hl hexp
    constructor
    · exact lookupKey_filter_none_of _ _ _ (fun v => by simp [hl, hexp])
    · intro hnd
      exact lookupKey_filter_none_nodup _ _ _ e hnd hl (by simp [hexp])
  · intro now w sid uid e hl hx ht
    have hev : lookupKey (evictExpired now w).store sid = some e :=
      lookupKey_filter _ _ _ _ hl (by simp [hx])
    unfold getOrCreateSession getSession
    simp only [hev, Option.map_some', ht, if_true]
    exact lookupKey_removeKey_self _ _
  · intro now cid resp s o i a
    exact executePayment_success_clears_vault now cid resp s o i a

/-! ## Error classifier theorems -/

/-- C7 (amended): failures classified by the error classifier
(`handleNekudaError`) with `retryable = true` never write the session's
error field; the tokenization substage, however, returns `retryable = true`
for its incomplete-data / invalid-expiry / tokenization failures while also
recording a session error (see the counterexample). -/
theorem classifier_retryable_no_error_write :
    (∀ e : NekudaErr, (handleNekudaError e).retryable = true →
      (handleNekudaError e).sessionErrorWrite = none) ∧
    (∀ (card : RevealedCard) (resp : Except String String),
      (tokenizeStep card resp).retryable = some true →
      (tokenizeStep card resp).sessionErrorWrite ≠ none) := by
  constructor
  · intro e h
    cases e with
    | cardNotFound => simp [handleNekudaError] at h
    | authentication => simp [handleNekudaError] at h
    | connection msg => rfl
    | validation msg => simp [handleNekudaError] at h
    | api statusCode msg =>
      unfold handleNekudaError at h ⊢
      by_cases hr : statusCode = 429 ∨ statusCode = 503
      · simp [hr]
      · simp [hr] at h
    | unknown msg => simp [handleNekudaError] at h
  · intro card resp
    unfold tokenizeStep
    dsimp only
    split_ifs <;> intro h <;> cases resp <;> simp_all

def cardC7 : RevealedCard :=
  { cardNumber := some "4242424242424242", cardExpiryDate := none,
    cardCvv := some "123", last4Digits := some "4242" }

/-- C7, counterexample: the tokenization substage classifies a reveal
response with a missing expiry as retryable (`retryable = true`) and still
writes "Incomplete card data received" into the session's error field. -/
theorem tokenize_retryable_writes_error :
    (tokenizeStep cardC7 (.ok "pm_1")).retryable = some true ∧
    (tokenizeStep cardC7 (.ok "pm_1")).sessionErrorWrite =
      some "Incomplete card data received" ∧
    (tokenizeStep cardC7 (.ok "pm_1")).result = .incompleteData "cardExpiryDate" := by
  refine ⟨by decide, by decide, by decide⟩

/-! ## Lemmas about the handoff-token encodings -/

theorem hexVal_hexDigitChar : ∀ n < 16, hexVal (hexDigitChar n) = some n := by decide

theorem hexDigitChar_ne_dot : ∀ n < 16, hexDigitChar n ≠ '.' := by decide

theorem natToHexCore_ne_nil (fuel n : ℕ) (h : n < fuel) :
    natToHexCore fuel n ≠ [] := by
  cases fuel with
  | zero => omega
  | succ f =>
    unfold natToHexCore
    by_cases h16 : n < 16
    · simp [h16]
    · simp [h16]

theorem natToHexCore_valid (fuel n : ℕ) (h : n < fuel) :
    ∀ c ∈ natToHexCore fuel n, (hexVal c).isSome ∧ c ≠ '.' := by
  induction fuel generalizing n with
  | zero => omega
  | succ f ih =>
    unfold natToHexCore
    by_cases h16 : n < 16
    · simp only [h16, if_true]
      intro c hc
      simp only [List.mem_singleton] at hc
      subst hc
      exact ⟨by rw [hexVal_hexDigitChar n h16]; rfl, hexDigitChar_ne_dot n h16⟩
    · simp only [h16, if_false]
      intro c hc
      rcases List.mem_append.mp hc with hc | hc
      · exact ih (n / 16) (by omega) c hc
      · simp only [List.mem_singleton] at hc
        subst hc
        have hm : n % 16 < 16 := Nat.mod_lt _ (by omega)
        exact ⟨by rw [hexVal_hexDigitChar _ hm]; rfl, hexDigitChar_ne_dot _ hm⟩

theorem natToHex_valid (n : ℕ) :
    ∀ c ∈ natToHex n, (hexVal c).isSome ∧ c ≠ '.' :=
  natToHexCore_valid (n + 1) n (by omega)

theorem parseHexAux_append (l1 l2 : List Char) (acc : ℕ)
    (h : ∀ c ∈ l1, (hexVal c).isSome) :
    parseHexAux acc (l1 ++ l2) = parseHexAux (parseHexAux acc l1) l2 := by
  induction l1 generalizing acc with
  | nil => rfl
  | cons c rest ih =>
    have hc := h c (List.mem_cons_self _ _)
    cases hv : hexVal c with
    | none => rw [hv] at hc; simp at hc
    | some v =>
      simp only [List.cons_append, parseHexAux, hv]
      exact ih _ (fun c hc => h c (List.mem_cons_of_mem _ hc))

theorem parseHexAux_natToHexCore (fuel n acc : ℕ) (h : n < fuel) :
    parseHexAux acc (natToHexCore fuel n) =
      acc * 16 ^ (natToHexCore fuel n).length + n := by
  induction fuel generalizing n acc with
  | zero => omega
  | succ f ih =>
    unfold natToHexCore
    by_cases h16 : n < 16
    · simp only [h16, if_true, parseHexAux, hexVal_hexDigitChar n h16]
      simp
    · simp only [h16, if_false]
      rw [parseHexAux_append _ _ _
        (fun c hc => (natToHexCore_valid f (n / 16) (by omega) c hc).1)]
      rw [ih (n / 16) acc (by omega)]
      have hm : n % 16 < 16 := Nat.mod_lt _ (by omega)
      simp only [parseHexAux, hexVal_hexDigitChar _ hm]
      simp [List.length_append, pow_succ]
      ring_nf
      omega

theorem parseIntHex_natToHex (n : ℕ) : parseIntHex (natToHex n) = some n := by
  have hval := natToHex_valid n
  have hne : natToHex n ≠ [] := natToHexCore_ne_nil (n + 1) n (by omega)
  cases hl : natToHex n with
  | nil => exact absurd hl hne
  | cons c rest =>
    have hc : (hexVal c).isSome := (hval c (by rw [hl]; simp)).1
    unfold parseIntHex
    dsimp only
    rw [if_pos hc, ← hl]
    have hp := parseHexAux_natToHexCore (n + 1) n 0 (by omega)
    unfold natToHex
    rw [hp]
    simp

theorem b64v_b64Char : ∀ n < 64, b64v (b64Char n) = n := by decide

theorem b64Char_ne_dot : ∀ n < 64, b64Char n ≠ '.' := by decide

theorem b64Encode_no_dot (l : List ℕ) (hb : ∀ b ∈ l, b < 256) :
    '.' ∉ b64Encode l := by
  induction l using b64Encode.induct with
  | case1 => simp [b64Encode]
  | case2 a =>
    have ha := hb a (by simp)
    simp only [b64Encode, List.mem_cons]
    rintro (h | h | h)
    · exact b64Char_ne_dot _ (by omega) h.symm
    · exact b64Char_ne_dot _ (by omega) h.symm
    · simp at h
  | case3 a b =>
    have ha := hb a (by simp)
    have hbb := hb b (by simp)
    simp only [b64Encode, List.mem_cons]
    rintro (h | h | h | h)
    · exact b64Char_ne_dot _ (by omega) h.symm
    · exact b64Char_ne_dot _ (by omega) h.symm
    · exact b64Char_ne_dot _ (by omega) h.symm
    · simp at h
  | case4 a b c rest ih =>
    have ha := hb a (by simp)
    have hbb := hb b (by simp)
    have hc := hb c (by simp)
    have ih' := ih (fun x hx => hb x (by simp [hx]))
    simp only [b64Encode, List.mem_cons]
    rintro (h | h | h | h | h)
    · exact b64Char_ne_dot _ (by omega) h.symm
    · exact b64Char_ne_dot _ (by omega) h.symm
    · exact b64Char_ne_dot _ (by omega) h.symm
    · exact b64Char_ne_dot _ (by omega) h.symm
    · exact ih' h

theorem b64_roundtrip (l : List ℕ) (hb : ∀ b ∈ l, b < 256) :
    b64Decode (b64Encode l) = l := by
  induction l using b64Encode.induct with
  | case1 => rfl
  | case2 a =>
    have ha := hb a (by simp)
    simp only [b64Encode, b64Decode]
    rw [b64v_b64Char _ (by omega), b64v_b64Char _ (by omega)]
    congr 1
    omega
  | case3 a b =>
    have ha := hb a (by simp)
    have hbb := hb b (by simp)
    simp only [b64Encode, b64Decode]
    rw [b64v_b64Char _ (by omega), b64v_b64Char _ (by omega),
      b64v_b64Char _ (by omega)]
    congr 1
    · omega
    · congr 1
      omega
  | case4 a b c rest ih =>
    have ha := hb a (by simp)
    have hbb := hb b (by simp)
    have hc := hb c (by simp)
    have ih' := ih (fun x hx => hb x (by simp [hx]))
    simp only [b64Encode]
    have hshape : ∀ c1 c2 c3 c4 t,
        b64Decode (c1 :: c2 :: c3 :: c4 :: t) =
          (b64v c1 * 4 + b64v c2 / 16) :: (b64v c2 % 16 * 16 + b64v c3 / 4) ::
            (b64v c3 % 4 * 64 + b64v c4) :: b64Decode t := fun _ _ _ _ _ => rfl
    rw [hshape]
    rw [b64v_b64Char _ (by omega), b64v_b64Char _ (by omega),
      b64v_b64Char _ (by omega), b64v_b64Char _ (by omega), ih']
    congr 1
    · omega
    · congr 1
      · omega
      · congr 1
        omega

theorem splitOnCharAux_no_sep (sep : Char) (l : List Char) (h : sep ∉ l) :
    splitOnCharAux sep l = (l, []) := by
  induction l with
  | nil => rfl
  | cons c rest ih =>
    simp only [List.mem_cons, not_or] at h
    simp [splitOnCharAux, ih h.2, Ne.symm h.1]

theorem splitOnCharAux_append (sep : Char) (l1 l2 : List Char) (h : sep ∉ l1) :
    splitOnCharAux sep (l1 ++ l2) =
      (l1 ++ (splitOnCharAux sep l2).1, (splitOnCharAux sep l2).2) := by
  induction l1 with
  | nil => rfl
  | cons c rest ih =>
    simp only [List.mem_cons, not_or] at h
    simp [splitOnCharAux, ih h.2, Ne.symm h.1]

theorem splitOnChar_three (a b c : List Char) (ha : '.' ∉ a) (hb : '.' ∉ b)
    (hc : '.' ∉ c) :
    splitOnChar '.' (a ++ '.' :: (b ++ '.' :: c)) = [a, b, c] := by
  have hsep : ∀ t, splitOnCharAux '.' ('.' :: t) =
      ([], (splitOnCharAux '.' t).1 :: (splitOnCharAux '.' t).2) := by
    intro t
    simp [splitOnCharAux]
  unfold splitOnChar
  rw [splitOnCharAux_append '.' a _ ha, hsep,
    splitOnCharAux_append '.' b _ hb, hsep, splitOnCharAux_no_sep '.' c hc]
  simp

theorem bytesToStr_strToBytes (s : String) : bytesToStr (strToBytes s) = s := by
  unfold bytesToStr strToBytes
  rw [List.map_map]
  have : (Char.ofNat ∘ Char.toNat) = id := by
    funext c
    exact Char.ofNat_toNat c
  rw [this, List.map_id]

theorem strToBytes_lt_256 (s : String) (h : ∀ ch ∈ s.data, ch.toNat < 256) :
    ∀ b ∈ strToBytes s, b < 256 := by
  intro b hb
  unfold strToBytes at hb
  obtain ⟨ch, hch, rfl⟩ := List.mem_map.mp hb
  exact h ch hch

/-- C6 (amended): for any deterministic dot-free signing primitive,
`verifyCheckoutToken (generateCheckoutToken A) A` is true while the token is
unexpired; and verification fails whenever the token does not have exactly
three dot-separated segments, or the signature segment hex-decodes
(case-insensitively, ignoring everything from the first invalid pair — so a
byte-level change such as upper-casing a hex digit is NOT necessarily
rejected, see the counterexample) to a byte sequence different from the HMAC
of the payload, or the current time is past the embedded expiry, or the
decoded checkoutId differs from the expected one. -/
theorem checkout_token_verify :
    (∀ (sign : String → String) (A : String) (mint now : ℕ),
      (∀ m, '.' ∉ (sign m).data) →
      (∀ ch ∈ A.data, ch.toNat < 256) →
      now ≤ mint + CHECKOUT_TOKEN_TTL_MS →
      verifyCheckoutToken sign now (generateCheckoutToken sign mint A) A = true) ∧
    (∀ (sign : String → String) (now : ℕ) (token A : String),
      (splitOnChar '.' token.data).length ≠ 3 →
      verifyCheckoutToken sign now token A = false) ∧
    (∀ (sign : String → String) (now : ℕ) (token A : String)
      (i e sg : List Char),
      splitOnChar '.' token.data = [i, e, sg] →
      hexPairs sg ≠ hexPairs (sign (String.mk (i ++ '.' :: e))).data →
      verifyCheckoutToken sign now token A = false) ∧
    (∀ (sign : String → String) (now : ℕ) (token A : String)
      (i e sg : List Char) (exp : ℕ),
      splitOnChar '.' token.data = [i, e, sg] →
      parseIntHex e = some exp → now > exp →
      verifyCheckoutToken sign now token A = false) ∧
    (∀ (sign : String → String) (now : ℕ) (token A : String)
      (i e sg : List Char),
      splitOnChar '.' token.data = [i, e, sg] →
      bytesToStr (b64Decode i) ≠ A →
      verifyCheckoutToken sign now token A = false) := by
  refine ⟨?_, ?_, ?_, ?_, ?_⟩
  · intro sign A mint now hdot hA hnow
    unfold generateCheckoutToken verifyCheckoutToken
    rw [if_neg (fun hcontra => by
      have hd := congrArg String.data hcontra
      exact (List.cons_ne_nil _ _) (List.append_eq_nil.mp hd).2)]
    dsimp only
    have hsplit : splitOnChar '.'
        ((b64Encode (strToBytes A) ++ '.' ::
            natToHex (mint + CHECKOUT_TOKEN_TTL_MS)) ++ '.' ::
          (sign (String.mk (b64Encode (strToBytes A) ++ '.' ::
            natToHex (mint + CHECKOUT_TOKEN_TTL_MS)))).data) =
        [b64Encode (strToBytes A), natToHex (mint + CHECKOUT_TOKEN_TTL_MS),
          (sign (String.mk (b64Encode (strToBytes A) ++ '.' ::
            natToHex (mint + CHECKOUT_TOKEN_TTL_MS)))).data] := by
      rw [List.append_assoc, List.cons_append]
      exact splitOnChar_three _ _ _
        (b64Encode_no_dot _ (strToBytes_lt_256 A hA))
        (fun hmem => (natToHex_valid _ '.' hmem).2 rfl)
        (hdot _)
    rw [hsplit]
    dsimp only
    rw [if_neg (by simp)]
    rw [parseIntHex_natToHex]
    dsimp only
    have hexp : decide (now > mint + CHECKOUT_TOKEN_TTL_MS) = false := by
      simp
      omega
    rw [hexp]
    rw [if_neg (by simp)]
    rw [b64_roundtrip _ (strToBytes_lt_256 A hA), bytesToStr_strToBytes]
    simp
  · intro sign now token A h
    unfold verifyCheckoutToken
    by_cases h0 : token = ""
    · rw [if_pos h0]
    · rw [if_neg h0]
      rcases hs : splitOnChar '.' token.data with _ | ⟨x, _ | ⟨y, _ | ⟨z, _ | ⟨w, t⟩⟩⟩⟩
      · rfl
      · rfl
      · rfl
      · rw [hs] at h; simp at h
      · rfl
  · intro sign now token A i e sg hs hne
    unfold verifyCheckoutToken
    by_cases h0 : token = ""
    · rw [if_pos h0]
    · rw [if_neg h0, hs]
      dsimp only
      rw [if_pos hne]
  · intro sign now token A i e sg exp hs hpe hgt
    unfold verifyCheckoutToken
    by_cases h0 : token = ""
    · rw [if_pos h0]
    · rw [if_neg h0, hs]
      dsimp only
      by_cases hsig : hexPairs sg ≠ hexPairs (sign (String.mk (i ++ '.' :: e))).data
      · rw [if_pos hsig]
      · rw [if_neg hsig, hpe]
        rw [if_pos (by simpa using hgt)]
  · intro sign now token A i e sg hs hne
    unfold verifyCheckoutToken
    by_cases h0 : token = ""
    · rw [if_pos h0]
    · rw [if_neg h0, hs]
      dsimp only
      by_cases hsig : hexPairs sg ≠ hexPairs (sign (String.mk (i ++ '.' :: e))).data
      · rw [if_pos hsig]
      · rw [if_neg hsig]
        cases hpe : parseIntHex e with
        | none =>
          dsimp only
          rw [if_neg (by simp)]
          simp [hne]
        | some exp =>
          dsimp only
          by_cases hgt : now > exp
          · rw [if_pos (by simpa using hgt)]
          · rw [if_neg (by simpa using hgt)]
            simp [hne]

/-- Upper-case a lowercase hex digit (a byte-level alteration of the
signature segment). -/
def toUpperHex (c : Char) : Char :=
  if 'a' ≤ c ∧ c ≤ 'f' then Char.ofNat (c.toNat - 32) else c

/-- The signature of the token minted for checkout "a" at time 0 under the
modelled HMAC with secret "s" (payload "YQ.493e0"). -/
def sigC6 : List Char := (hmacSpec "s" "YQ.493e0").data

/-- The minted token with every hex letter of its signature segment
upper-cased. -/
def tokenC6 : String :=
  String.mk (b64Encode (strToBytes "a") ++ '.' :: natToHex 300000 ++ '.' ::
    sigC6.map toUpperHex)

/-- C6, counterexample to "the signature segment differs in any byte → verify
returns false": the signature segment of `tokenC6` differs byte-for-byte from
the HMAC of the payload (its hex letters are upper-cased), the token is
unexpired and bound to the expected checkout — and verification still
returns true, because `Buffer.from(sig, "hex")` decodes case-insensitively. -/
theorem checkout_token_uppercase_sig_accepted :
    splitOnChar '.' tokenC6.data =
      ["YQ".data, "493e0".data, sigC6.map toUpperHex] ∧
    sigC6.map toUpperHex ≠ (hmacSpec "s" "YQ.493e0").data ∧
    verifyCheckoutToken (hmacSpec "s") 100 tokenC6 "a" = true := by
  refine ⟨by decide, by decide, by decide⟩

/-! ## Concrete instances for the theorems with hypotheses -/

theorem hmacSpec_no_dot (secret m : String) : '.' ∉ (hmacSpec secret m).data := by
  unfold hmacSpec
  intro hmem
  simp only [List.mem_append, List.mem_replicate] at hmem
  rcases hmem with ⟨_, h⟩ | h
  · exact absurd h (by decide)
  · exact (natToHex_valid _ '.' h).2 rfl

def catW : Catalog := [⟨"prod_001", "Wireless Headphones", 8999 / 100, 15⟩]

def cartW : Cart :=
  { id := "cw", userId := "u", status := .active, total := 1,
    items := [⟨"prod_001", "Wireless Headphones", 1, 1⟩] }

def cartW1 : Cart :=
  { id := "cw", userId := "u", status := .checked_out, total := 8999 / 100,
    items := [⟨"prod_001", "Wireless Headphones", 1, 8999 / 100⟩] }

theorem checkout_total_from_catalog_witness :
    checkout catW cartW = .ok cartW1 ∧
    cartW1.total =
      (cartW1.items.map
        (fun i => catalogPrice catW i.productId * (i.quantity : ℚ))).sum ∧
    (∀ i ∈ cartW1.items,
      ∃ p, getById catW i.productId = some p ∧ i.unitPrice = p.price) := by
  have h : checkout catW cartW = .ok cartW1 := by
    norm_num [checkout, checkoutLoop, getById, catW, cartW, cartW1, Except.map]
  have hc := checkout_total_from_catalog catW cartW cartW1 h
  exact ⟨h, hc.1, hc.2.1⟩

theorem markPaid_insufficient_stock_witness :
    cartC2.status = .checked_out ∧
    (∃ e, (markPaid catC2 cartC2).2 = .error e) ∧
    cartAfterMarkPaid catC2 cartC2 = cartC2 ∧
    (cartAfterMarkPaid catC2 cartC2).status = .checked_out := by
  have h := markPaid_insufficient_stock catC2 cartC2
    ⟨"prod_b", "Product B", 1, 1⟩ ⟨"prod_b", "Product B", 1, 0⟩
    rfl (by decide) (by decide) (by decide)
  exact ⟨rfl, h.1, h.2.1, h.2.2.1⟩

def stateC3 : ExecState :=
  { credentialsRevealedAt := some 0, vaultRef := some "pm_1", cart := none,
    catalog := [], paymentStatus := none, errorField := none,
    orderId := none, intentId := none }

theorem executePayment_precondition_order_witness :
    ((3360000 : ℤ) - 0 > CREDENTIAL_TTL_MS) ∧
    executePayment 3360000 "co" (.error "x") stateC3 =
      { result := .credentialsExpired,
        state := { stateC3 with vaultRef := none }, charges := [] } ∧
    ((3240000 : ℤ) - 0 ≤ CREDENTIAL_TTL_MS) ∧
    (executePayment 3240000 "co" (.error "x") stateC3).result ≠
      .credentialsExpired := by
  refine ⟨by decide,
    executePayment_precondition_order.1 3360000 "co" _ stateC3 0 rfl (by decide),
    by decide,
    executePayment_precondition_order.2.1 3240000 "co" _ stateC3 0 rfl (by decide)⟩

def catW4 : Catalog := [⟨"prod_y", "Product Y", 7, 3⟩]

def cartW4 : Cart :=
  { id := "cw4", userId := "u", status := .checked_out, total := 14,
    items := [⟨"prod_y", "Product Y", 2, 7⟩] }

def stateW4 : ExecState :=
  { credentialsRevealedAt := none, vaultRef := some "pm_9",
    cart := some cartW4, catalog := catW4, paymentStatus := none,
    errorField := none, orderId := none, intentId := none }

def rawW4 : ℚ := 0 + 7 * ((2 : ℕ) : ℚ)

theorem executePayment_success_effects_witness :
    serverTotalLoop stateW4.catalog cartW4.items 0 = .ok rawW4 ∧
    executePayment 0 "cw4" (.ok ⟨"pi_9", "succeeded"⟩) stateW4 =
      { result := .success cartW4.id "pi_9" ((jsRound (rawW4 * 100) : ℚ) / 100),
        state := { stateW4 with
          catalog := (markPaid stateW4.catalog cartW4).1,
          cart := some { cartW4 with status := .paid },
          vaultRef := none,
          orderId := some cartW4.id,
          intentId := some "pi_9",
          paymentStatus := some .succeeded },
        charges := [{ amountMinor :=
                        jsRound (((jsRound (rawW4 * 100) : ℚ) / 100) * 100),
                      paymentMethod := "pm_9",
                      idempotencyKey := "pay_" ++ "cw4" }] } ∧
    (markPaid stateW4.catalog cartW4).2 = .ok { cartW4 with status := .paid } := by
  have hst : serverTotalLoop stateW4.catalog cartW4.items 0 = .ok rawW4 := rfl
  have h := executePayment_success_effects 0 "cw4" ⟨"pi_9", "succeeded"⟩ stateW4
    "pm_9" cartW4 rawW4 (fun t ht => Option.noConfusion ht) rfl rfl rfl hst
    (by decide)
    (fun i hi => by
      simp only [cartW4, List.mem_singleton] at hi
      subst hi
      exact ⟨⟨"prod_y", "Product Y", 7, 3⟩, by decide, by decide⟩)
  exact ⟨hst, h.1, h.2⟩

theorem executePayment_decline_effects_witness :
    serverTotalLoop stateW4.catalog cartW4.items 0 = .ok rawW4 ∧
    executePayment 0 "cw4" (.error "Your card has insufficient funds.") stateW4 =
      { result := .declined "Your card has insufficient funds.",
        state := { stateW4 with
          paymentStatus := some .failed,
          errorField := some "Your card has insufficient funds." },
        charges := [{ amountMinor :=
                        jsRound (((jsRound (rawW4 * 100) : ℚ) / 100) * 100),
                      paymentMethod := "pm_9",
                      idempotencyKey := "pay_" ++ "cw4" }] } ∧
    (executePayment 0 "cw4" (.error "Your card has insufficient funds.")
      stateW4).state.cart = some cartW4 ∧
    cartW4.status = .checked_out := by
  have hst : serverTotalLoop stateW4.catalog cartW4.items 0 = .ok rawW4 := rfl
  have h := executePayment_decline_effects 0 "cw4"
    "Your card has insufficient funds." stateW4 "pm_9" cartW4 rawW4
    (fun t ht => Option.noConfusion ht) rfl rfl rfl hst
  exact ⟨hst, h.1, h.2.1, h.2.2.1⟩

theorem checkout_token_verify_witness :
    (∀ ch ∈ ("a" : String).data, ch.toNat < 256) ∧
    (100 : ℕ) ≤ 0 + CHECKOUT_TOKEN_TTL_MS ∧
    verifyCheckoutToken (hmacSpec "s") 100
      (generateCheckoutToken (hmacSpec "s") 0 "a") "a" = true := by
  exact ⟨by decide, by decide,
    checkout_token_verify.1 (hmacSpec "s") "a" 0 100
      (fun m => hmacSpec_no_dot "s" m) (by decide) (by decide)⟩

theorem classifier_retryable_no_error_write_witness :
    (handleNekudaError (.connection "timeout")).retryable = true ∧
    (handleNekudaError (.connection "timeout")).sessionErrorWrite = none := by
  exact ⟨by decide,
    classifier_retryable_no_error_write.1 (.connection "timeout") (by decide)⟩

def stW8 : SessionState :=
  { sessionId := "sess_1", userId := "u", cartId := some "c",
    cartStatus := some .paid, cartTotal := none, checkoutId := some "c",
    mandateId := some 7, mandateStatus := some .approved,
    revealTokenObtained := true, credentialsRevealed := true,
    credentialsRevealedAt := some 5, orderId := some "c",
    stripePaymentIntentId := some "pi", paymentStatus := some .succeeded,
    error := none, updatedAt := 9 }

def worldW8 : SessionWorld :=
  { store := [("sess_1", ⟨stW8, 0, some 0⟩)], vault := [("sess_1", "pm_1")] }

theorem getOrCreate_reset_witness :
    lookupKey worldW8.store "sess_1" = some ⟨stW8, 0, some 0⟩ ∧
    entryExpired 10 ⟨stW8, 0, some 0⟩ = false ∧
    isTerminal stW8.paymentStatus = true ∧
    (getOrCreateSession 10 worldW8 "sess_1" "u").1 =
      createSessionState "sess_1" "u" 10 ∧
    lookupKey (getOrCreateSession 10 worldW8 "sess_1" "u").2.store "sess_1" =
      some ⟨createSessionState "sess_1" "u" 10, 10, none⟩ := by
  have h := (getOrCreate_reset 10 worldW8 "sess_1" "u" ⟨stW8, 0, some 0⟩
    (by decide) (by decide)).1 (by decide)
  obtain ⟨h1, _, _, _, _, _, _, _, _, _, _, _, _, _, _, hlast⟩ := h
  exact ⟨by decide, by decide, by decide, h1, hlast⟩

theorem vault_never_outlives_session_witness :
    entryExpired 10000000 ⟨stW8, 0, some 0⟩ = true ∧
    getPaymentMethodId worldW8 "sess_1" = some "pm_1" ∧
    getPaymentMethodId (evictExpired 10000000 worldW8) "sess_1" = none ∧
    getPaymentMethodId (deleteSession worldW8 "sess_1") "sess_1" = none := by
  refine ⟨by decide, by decide,
    (vault_never_outlives_session.2.1 10000000 worldW8 "sess_1"
      ⟨stW8, 0, some 0⟩ (by decide) (by decide)).1,
    vault_never_outlives_session.1 worldW8 "sess_1"⟩

theorem cart_ops_preserve_wf_witness :
    clearCart cartW = .ok { cartW with items := [], total := 0 } ∧
    CartWF { cartW with items := [], total := 0 } := by
  have h : clearCart cartW = .ok { cartW with items := [], total := 0 } := by
    decide
  exact ⟨h, cart_ops_preserve_wf.2.2.2.2.1 cartW _ h⟩

end Wallet
